import Mathlib

/-!
Verification of `src/routing/route.cpp` (the Route tracker of a navigation
core): a shallow embedding of its data model and operations, followed by
theorems about map matching, cursor monotonicity, turn/time/street queries
and the JSON wire codec.

External geometry primitives (`MercatorBounds`, `ang::AngleTo`, the planar
Mercator metric) live outside the sources, so the development is parametric
in a `Geo` record of those primitives.  Machine doubles are modelled as
rationals; the `uint32_t` casts of the source are explicit truncations.
-/

namespace routing

/-- m2::PointD: a 2D coordinate in the planar Mercator projection. -/
abbrev Point : Type := ℚ × ℚ

/-- m2::RectD: an axis-aligned rectangle, as min/max corners. -/
structure Rect where
  minX : ℚ
  minY : ℚ
  maxX : ℚ
  maxY : ℚ
deriving DecidableEq

/-- Membership of a point in a rectangle. -/
def Rect.contains (r : Rect) (p : Point) : Bool :=
  decide (r.minX ≤ p.1) && decide (p.1 ≤ r.maxX) &&
  decide (r.minY ≤ p.2) && decide (p.2 ≤ r.maxY)

/-- The geometry primitives route.cpp calls but that live in other libraries
(geometry/, platform/): Mercator/degree conversions, the earth metric in
meters, the planar Mercator segment length, rect construction and angles.
All theorems below are parametric in this record. -/
structure Geo where
  yToLat : ℚ → ℚ
  xToLon : ℚ → ℚ
  fromLatLon : ℚ → ℚ → Point
  distOnEarth : Point → Point → ℚ
  mercSeg : Point → Point → ℚ
  metresToXY : ℚ → ℚ → ℚ → Rect
  angleTo : Point → Point → ℚ
  radToDeg : ℚ → ℚ
  angleToBearing : ℚ → ℚ

/-- location::GpsInfo: a raw GPS fix. `m_hasSpeed` models `HasSpeed()`. -/
structure GpsInfo where
  m_latitude : ℚ
  m_longitude : ℚ
  m_horizontalAccuracy : ℚ
  m_speed : ℚ
  m_hasSpeed : Bool
  m_timestamp : ℚ
  m_bearing : ℚ
deriving DecidableEq

/-- FollowedPolyline::Iter: projected point, vertex index, validity. -/
structure Iter where
  m_pt : Point
  m_ind : ℕ
  m_isValid : Bool
deriving DecidableEq

/-- The polyline tracker: an ordered point sequence plus the current cursor. -/
structure FollowedPolyline where
  points : List Point
  cur : Iter
deriving DecidableEq

/-- Modelled from the spec: FollowedPolyline::IsValid (the class is not under
src/) is "true once constructed from a non-empty point sequence". -/
def FollowedPolyline.IsValid (p : FollowedPolyline) : Bool := !p.points.isEmpty

/-- turns::TurnItem.  The direction enums are kept as their raw integer
codes, which is how the wire codec reads and writes them. -/
structure TurnItem where
  m_index : ℕ
  m_turn : ℤ
  m_exitNum : ℕ
  m_keepAnyway : Bool
  m_pedestrianTurn : ℤ
  m_sourceName : String
  m_targetName : String
deriving DecidableEq

instance : Inhabited TurnItem := ⟨⟨0, 0, 0, false, 0, "", ""⟩⟩

/-- routing::Route: the polyline trackers, the settings consulted by
route.cpp (`m_matchingThresholdM`, `m_matchRoute`, `m_keepPedestrianInfo`),
the maneuver/timing/street tables and the absent-country set (a
`std::set<string>`, modelled as its sorted iteration order). -/
structure Route where
  m_router : String
  m_matchingThresholdM : ℚ
  m_matchRoute : Bool
  m_keepPedestrianInfo : Bool
  m_poly : FollowedPolyline
  m_simplifiedPoly : FollowedPolyline
  m_name : String
  m_currentTime : ℚ
  m_turns : List TurnItem
  m_times : List (ℕ × ℚ)
  m_streets : List (ℕ × String)
  m_absentCountries : List String
deriving DecidableEq

/-- Truncation of a nonnegative double to uint32_t, as in the source's
`static_cast` and implicit conversions. -/
def toU32 (q : ℚ) : ℕ := q.floor.toNat % 2 ^ 32

/-- Conversion of an int to the uint32_t fields populated by FromJson. -/
def toIdx (z : ℤ) : ℕ := z.toNat % 2 ^ 32

/-- Arc length of `k` consecutive segments of `pts` starting at vertex `a`,
under the point metric `d`. -/
def arcFrom (d : Point → Point → ℚ) (pts : List Point) : ℕ → ℕ → ℚ
  | _, 0 => 0
  | a, k + 1 =>
      d (pts.getD a (0, 0)) (pts.getD (a + 1) (0, 0)) + arcFrom d pts (a + 1) k

/-- Signed arc length between two vertex indices under metric `d`. -/
def distAlong (d : Point → Point → ℚ) (pts : List Point) (a b : ℕ) : ℚ :=
  if a ≤ b then arcFrom d pts a (b - a) else -(arcFrom d pts b (a - b))

/-- FollowedPolyline::GetIterToIndex: the cursor sitting exactly on vertex
`i`. -/
def GetIterToIndex (pts : List Point) (i : ℕ) : Iter := ⟨pts.getD i (0, 0), i, true⟩

/-- Modelled from the spec: FollowedPolyline::GetDistanceM (the class is not
under src/) — "arc length between two cursors, signed by traversal order",
in meters.  Modelled on the cursors' vertex indices; every use settled here
passes index-aligned cursors (`GetIterToIndex`). -/
def GetDistanceM (geo : Geo) (pts : List Point) (a b : Iter) : ℚ :=
  distAlong geo.distOnEarth pts a.m_ind b.m_ind

/-- Modelled from the spec: turns::CalculateMercatorDistanceAlongPath (in
turns_generator, not under src/) — the path distance between two vertex
indices in Mercator projection units, the sum of the planar Mercator lengths
of the intervening segments. -/
def CalculateMercatorDistanceAlongPath (geo : Geo) (a b : ℕ) (pts : List Point) : ℚ :=
  distAlong geo.mercSeg pts a b

/-- Modelled from the spec: FollowedPolyline::GetTotalDistanceM (not under
src/) — cumulative arc length of the whole polyline in meters. -/
def FollowedPolyline.GetTotalDistanceM (geo : Geo) (p : FollowedPolyline) : ℚ :=
  distAlong geo.distOnEarth p.points 0 (p.points.length - 1)

/-- Modelled from the spec: FollowedPolyline::GetMercatorDistanceFromBegin
(not under src/) — cumulative Mercator arc length from the route start to
the cursor (full segments up to the cursor's vertex, plus the cursor's
offset inside its segment). -/
def Route.GetMercatorDistanceFromBegin (geo : Geo) (r : Route) : ℚ :=
  CalculateMercatorDistanceAlongPath geo 0 r.m_poly.cur.m_ind r.m_poly.points
    + geo.mercSeg (r.m_poly.points.getD r.m_poly.cur.m_ind (0, 0)) r.m_poly.cur.m_pt

/-- Route::GetTotalTimeSec: the last time checkpoint's cumulative seconds
(0 when the table is empty), converted to uint32_t. -/
def Route.GetTotalTimeSec (r : Route) : ℕ :=
  match r.m_times.getLast? with
  | none => 0
  | some t => toU32 t.2

/-- std::upper_bound's bisection over the window of `count` positions of
`xs` starting at `lo`; `p x` is `comp(value, x)`.  The fuel argument makes
the recursion structural; callers pass fuel at least `count`. -/
def ubAuxF {α : Type} [Inhabited α] (p : α → Bool) (xs : List α) : ℕ → ℕ → ℕ → ℕ
  | 0, lo, _ => lo
  | fuel + 1, lo, count =>
      if count = 0 then lo
      else
        let step := count / 2
        if p (xs.getD (lo + step) default) then ubAuxF p xs fuel lo step
        else ubAuxF p xs fuel (lo + step + 1) (count - step - 1)

/-- std::upper_bound over the whole list: the position of the first element
`x` with `p x` when the list is partitioned by `p` (as the source's sorted
tables are); `xs.length` plays the part of the end iterator. -/
def upperBound {α : Type} [Inhabited α] (p : α → Bool) (xs : List α) : ℕ :=
  ubAuxF p xs xs.length 0 xs.length

/-- Route::GetCurrentTurn (iterator version, route.cpp:338): upper_bound on
the turn table by vertex index against the cursor's index; the result is a
position into the table, with `m_turns.length` as the end iterator. -/
def Route.GetCurrentTurnIterPos (r : Route) : ℕ :=
  upperBound (fun t => decide (r.m_poly.cur.m_ind < t.m_index)) r.m_turns

/-- Route::GetCurrentTurn(double &, TurnItem &) (route.cpp:398): `none`
models the `return false` taken when the iterator query hits the end (the
debug ASSERT is compiled out); `some` carries the two out-parameters. -/
def Route.GetCurrentTurn2 (geo : Geo) (r : Route) : Option (ℚ × TurnItem) :=
  match r.m_turns.get? r.GetCurrentTurnIterPos with
  | none => none
  | some t =>
      some (GetDistanceM geo r.m_poly.points r.m_poly.cur
              (GetIterToIndex r.m_poly.points t.m_index), t)

/-- Route::GetNextTurn (route.cpp:414): the turn strictly after the current
one; `none` models `return false` (with the out-parameters defaulted). -/
def Route.GetNextTurn (geo : Geo) (r : Route) : Option (ℚ × TurnItem) :=
  let k := r.GetCurrentTurnIterPos
  if k = r.m_turns.length ∨ k + 1 = r.m_turns.length then none
  else
    match r.m_turns.get? (k + 1) with
    | none => none
    | some t =>
        some (GetDistanceM geo r.m_poly.points r.m_poly.cur
                (GetIterToIndex r.m_poly.points t.m_index), t)

/-- Route::GetCurrentTimeToEndSec (route.cpp:298).  `my::AlmostEqualULPs`
against 0.0 is modelled as exact equality with 0 (rationals have no ULPs);
the debug ASSERTs are compiled out, as in a release build. -/
def Route.GetCurrentTimeToEndSec (geo : Geo) (r : Route) : ℕ :=
  let polySz := r.m_poly.points.length
  if r.m_times.isEmpty ∨ polySz = 0 then 0
  else
    let ind := r.m_poly.cur.m_ind
    let k := upperBound (fun item => decide (ind < item.1)) r.m_times
    match r.m_times.get? k with
    | none => 0
    | some it =>
        let time : ℚ := it.2 - (if 0 < k then (r.m_times.getD (k - 1) (0, 0)).2 else 0)
        let distFn : ℕ → ℕ → ℚ := fun s e =>
          GetDistanceM geo r.m_poly.points (GetIterToIndex r.m_poly.points s)
            (GetIterToIndex r.m_poly.points e)
        let dist := distFn (if 0 < k then (r.m_times.getD (k - 1) (0, 0)).1 else 0) it.1
        if dist ≠ 0 then
          let distRemain := distFn ind it.1 -
            geo.distOnEarth r.m_poly.cur.m_pt (r.m_poly.points.getD ind (0, 0))
          toU32 (((r.GetTotalTimeSec : ℚ) - it.2) + time * (distRemain / dist))
        else
          toU32 ((r.GetTotalTimeSec : ℚ) - it.2)

/-- The while-loop of Route::GetCurrentStreetNameIterAfter (route.cpp:388).
`curIt` is the scanning iterator's position and the list argument is the
corresponding suffix `streets.drop curIt` (the loop's `prevIter` is always
`curIt - 1`).  The `[]` case is the loop condition dereferencing the
past-the-end iterator: undefined behaviour in the source, `none` here. -/
def streetScanAux (ind : ℕ) : List (ℕ × String) → ℕ → ℕ → Option ℕ
  | [], _, _ => none
  | e :: rest, total, curIt =>
      if e.1 < ind then
        if curIt + 1 = total then some (curIt + 1)
        else streetScanAux ind rest total (curIt + 1)
      else if e.1 = ind then some curIt else some (curIt - 1)

/-- Route::GetCurrentStreetNameIterAfter (route.cpp:376): `some k` is the
iterator at position `k` (`k = length` being the end iterator), `none` the
out-of-bounds dereference of the scan. -/
def Route.GetCurrentStreetNameIterAfter (r : Route) (iter : Iter) : Option ℕ :=
  if r.m_streets.isEmpty then some r.m_streets.length
  else streetScanAux iter.m_ind (r.m_streets.drop 1) r.m_streets.length 1

/-- kSteetNameLinkMeters (route.cpp:26), the street lookahead threshold. -/
def kSteetNameLinkMeters : ℚ := 400

/-- The forward scan of Route::GetStreetNameAfterIdx (route.cpp:367) over a
suffix of the street table: skip empty names; at the first non-empty name
return it if it lies within `kSteetNameLinkMeters` of vertex `polyInd`,
else return the cleared (empty) name. -/
def streetForwardAux (geo : Geo) (pts : List Point) (polyInd : ℕ) :
    List (ℕ × String) → String
  | [] => ""
  | e :: rest =>
      if e.2 = "" then streetForwardAux geo pts polyInd rest
      else if GetDistanceM geo pts (GetIterToIndex pts polyInd)
              (GetIterToIndex pts (max e.1 polyInd)) < kSteetNameLinkMeters then e.2
      else ""

/-- Route::GetStreetNameAfterIdx (route.cpp:360).  `some name` is the value
of the out-parameter on return; `none` propagates the undefined bracket
scan. -/
def Route.GetStreetNameAfterIdx (geo : Geo) (r : Route) (idx : ℕ) : Option String :=
  match r.GetCurrentStreetNameIterAfter (GetIterToIndex r.m_poly.points idx) with
  | none => none
  | some k =>
      if k = r.m_streets.length then some ""
      else some (streetForwardAux geo r.m_poly.points idx (r.m_streets.drop k))

/-- The `formerTurnIndex` computation of Route::GetTurnsDistances: 0 at the
table's first entry, the raw previous turn's vertex index otherwise. -/
def prevIdx : Option TurnItem → ℕ
  | none => 0
  | some p => p.m_index

/-- The loop of Route::GetTurnsDistances (route.cpp:65): `prev` is the raw
previous turn (`currentTurn - 1`), `acc` the running `mercatorDistance`.
Turns at vertex 0 or at the last vertex are skipped. -/
def turnsDistLoop (geo : Geo) (pts : List Point) (polySz : ℕ) :
    List TurnItem → Option TurnItem → ℚ → List ℚ
  | [], _, _ => []
  | t :: rest, prev, acc =>
      if t.m_index = 0 ∨ t.m_index = polySz - 1 then
        turnsDistLoop geo pts polySz rest (some t) acc
      else
        let former : ℕ := prevIdx prev
        let accNew := acc + CalculateMercatorDistanceAlongPath geo former t.m_index pts
        accNew :: turnsDistLoop geo pts polySz rest (some t) accNew

/-- Route::GetTurnsDistances (route.cpp:65). -/
def Route.GetTurnsDistances (geo : Geo) (r : Route) : List ℚ :=
  turnsDistLoop geo r.m_poly.points r.m_poly.points.length r.m_turns none 0

/-- The structured wire document (the rapidjson DOM that
Route::GetMeRouteAsJson builds and Route::FromJson reads; serialisation to
text and parsing back are inverse and are modelled as the identity on the
document). -/
inductive JVal : Type where
  | null : JVal
  | num : ℚ → JVal
  | str : String → JVal
  | jbool : Bool → JVal
  | arr : List JVal → JVal
  | obj : List (String × JVal) → JVal

/-- GenericValue::operator[](name) of the bundled (pre-1.0) rapidjson: a
missing member yields the static zero-initialised null value. -/
def getMem (j : JVal) (name : String) : JVal :=
  match j with
  | .obj ms => (((ms.find? fun m => m.1 == name).map Prod.snd).getD .null)
  | _ => .null

/-- GetDouble with RAPIDJSON_ASSERT compiled out (release build): a
non-number value reads its zero-initialised payload. -/
def getDouble : JVal → ℚ
  | .num q => q
  | _ => 0

/-- GetInt under the same release semantics; every number the codec reads
with GetInt was written as an integer. -/
def getInt : JVal → ℤ
  | .num q => q.floor
  | _ => 0

/-- GetBool_ under the same release semantics. -/
def getBoolJ : JVal → Bool
  | .jbool b => b
  | _ => false

/-- GetString for the string members the codec reads (all present in the
documents settled here). -/
def getStringJ : JVal → String
  | .str s => s
  | _ => ""

/-- Array access for the `IsArray`-asserted members. -/
def asArr : JVal → List JVal
  | .arr xs => xs
  | _ => []

/-- The `instructions` array of Route::GetMeRouteAsJson (route.cpp:165):
one object per raw turn-table entry, with `previousIndex` threaded through;
the `time` member reads `m_times[i]`, an access the source only defines
when the time table has at least as many entries as the turn table (the
out-of-range read is modelled by the default pair). -/
def instrList (r : Route) : List TurnItem → ℕ → ℕ → List JVal
  | [], _, _ => []
  | t :: rest, i, previousIndex =>
      JVal.obj
        [("streetSource", .str t.m_sourceName),
         ("streetTarget", .str t.m_targetName),
         ("exitNumber", .num (t.m_exitNum : ℚ)),
         ("exited", .jbool (decide (t.m_exitNum ≠ 0))),
         ("turnDirection", .num (t.m_turn : ℚ)),
         ("pedestrianDirection", .num (t.m_pedestrianTurn : ℚ)),
         ("startInterval", .num (previousIndex : ℚ)),
         ("endInterval", .num (t.m_index : ℚ)),
         ("time", .num (r.m_times.getD i (0, 0)).2),
         ("keepAnyways", .jbool t.m_keepAnyway)]
      :: instrList r rest (i + 1) t.m_index

/-- Route::GetMeRouteAsJson (route.cpp:101), as the document it writes. -/
def Route.GetMeRouteAsJson (geo : Geo) (r : Route) : JVal :=
  let pts := r.m_poly.points
  let polySz := pts.length
  JVal.obj
    [("points", .arr (pts.map fun p =>
        JVal.obj [("latitude", .num (geo.yToLat p.2)),
                  ("longitude", .num (geo.xToLon p.1))])),
     ("turns", .arr ((r.GetTurnsDistances geo).map JVal.num)),
     ("times", .arr (r.m_times.map fun ti =>
        JVal.obj [("time", .num ti.2), ("index", .num (ti.1 : ℚ))])),
     ("streets", .arr (r.m_streets.map fun st =>
        JVal.obj [("name", .str st.2), ("index", .num (st.1 : ℚ))])),
     ("instructions", .arr (instrList r r.m_turns 0 0)),
     ("absentCountries", .arr (r.m_absentCountries.map JVal.str)),
     ("distanceMercator", .num (if 0 < polySz then
        CalculateMercatorDistanceAlongPath geo 0 (polySz - 1) pts else 0)),
     ("distance", .num (r.m_poly.GetTotalDistanceM geo)),
     ("duration", .num (r.GetTotalTimeSec : ℚ)),
     ("name", .str r.m_router)]

/-- Modelled from the spec: Route::SetGeometry (declared in route.hpp,
outside src/) rebuilds the followed polyline from a point sequence, with
the cursor at the first vertex. -/
def mkFollowedPolyline (pts : List Point) : FollowedPolyline :=
  ⟨pts, ⟨pts.getD 0 (0, 0), 0, !pts.isEmpty⟩⟩

/-- Route::FromJson (route.cpp:220), decoding the document into `r` (the
method mutates `this`; `SetGeometry`/`SetTurnInstructions`/`SetSectionTimes`
/`SetStreetNames` replace the four decoded members and nothing else).  Note
the `times` loop reads members named "latitude" and "longitude", which
GetMeRouteAsJson never writes. -/
def Route.FromJson (geo : Geo) (routeJson : JVal) (r : Route) : Route :=
  let document := routeJson
  let points : List Point := (asArr (getMem document "points")).map fun item =>
    geo.fromLatLon (getDouble (getMem item "latitude"))
      (getDouble (getMem item "longitude"))
  let routeTimes : List (ℕ × ℚ) := (asArr (getMem document "times")).map fun item =>
    (toIdx (getInt (getMem item "longitude")), getDouble (getMem item "latitude"))
  let streets : List (ℕ × String) := (asArr (getMem document "streets")).map fun item =>
    (toIdx (getInt (getMem item "index")), getStringJ (getMem item "name"))
  let routeTurns : List TurnItem := (asArr (getMem document "instructions")).map fun item =>
    { m_index := toIdx (getInt (getMem item "endInterval")),
      m_turn := getInt (getMem item "turnDirection"),
      m_exitNum := toIdx (getInt (getMem item "exitNumber")),
      m_keepAnyway := getBoolJ (getMem item "keepAnyways"),
      m_pedestrianTurn := getInt (getMem item "pedestrianDirection"),
      m_sourceName := getStringJ (getMem item "streetSource"),
      m_targetName := getStringJ (getMem item "streetTarget") }
  { r with m_poly := mkFollowedPolyline points,
           m_turns := routeTurns,
           m_times := routeTimes,
           m_streets := streets }

/-- kLocationTimeThreshold (route.cpp:24). -/
def kLocationTimeThreshold : ℚ := 60

/-- kOnEndToleranceM (route.cpp:25). -/
def kOnEndToleranceM : ℚ := 10

/-- The do-while scan of Route::GetPolySegAngle (route.cpp:491): advance
`i` past points coincident with `p1` (`m2::AlmostEqualULPs`, exact equality
on rationals); the list argument is the suffix `pts.drop i`.  Reaching
`polySz` returns the neutral angle 0, otherwise the segment angle. -/
def segAngleScan (geo : Geo) (p1 : Point) (polySz : ℕ) : List Point → ℕ → ℚ
  | [], _ => 0
  | p2 :: rest, i =>
      if p1 = p2 then
        if i + 1 < polySz then segAngleScan geo p1 polySz rest (i + 1)
        else 0
      else geo.radToDeg (geo.angleTo p1 p2)

/-- Route::GetPolySegAngle (route.cpp:478). -/
def Route.GetPolySegAngle (geo : Geo) (r : Route) (ind : ℕ) : ℚ :=
  let polySz := r.m_poly.points.length
  if polySz ≤ ind + 1 then 0
  else segAngleScan geo (r.m_poly.points.getD ind (0, 0)) polySz
        (r.m_poly.points.drop (ind + 1)) (ind + 1)

/-- Route::MatchLocationToRoute (route.cpp:499).  The fix is passed and
returned by value here; `location::RouteMatchingInfo` is the optional
(projected point, vertex index, Mercator distance-from-begin) triple that
`Set` overwrites. -/
def Route.MatchLocationToRoute (geo : Geo) (r : Route) (location : GpsInfo)
    (routeMatchingInfo : Option (Point × ℕ × ℚ)) :
    GpsInfo × Option (Point × ℕ × ℚ) :=
  if r.m_poly.IsValid then
    let iter := r.m_poly.cur
    let locationMerc := geo.fromLatLon location.m_latitude location.m_longitude
    let distFromRouteM := geo.distOnEarth iter.m_pt locationMerc
    if distFromRouteM < r.m_matchingThresholdM then
      ({ location with
          m_latitude := geo.yToLat iter.m_pt.2,
          m_longitude := geo.xToLon iter.m_pt.1,
          m_bearing := if r.m_matchRoute then
              geo.angleToBearing (r.GetPolySegAngle geo iter.m_ind)
            else location.m_bearing },
       some (iter.m_pt, iter.m_ind, r.GetMercatorDistanceFromBegin geo))
    else (location, routeMatchingInfo)
  else (location, routeMatchingInfo)

/-- Modelled from the spec: FollowedPolyline::UpdateProjectionByPrediction
is not under src/.  Per the spec it "restricts the projection search to the
portion of the polyline reachable ahead of the current cursor", "returns
the new cursor, or marks it invalid if no point of the polyline falls
inside searchRect", and "must never move vertexIndex backward"; the
predicted distance only narrows the forward search window further.  The
model selects the first vertex at or after the cursor that lies inside the
rect; on failure the stored cursor is untouched and an invalid cursor is
returned. -/
def FollowedPolyline.UpdateProjectionByPrediction (p : FollowedPolyline)
    (rect : Rect) (predictDistance : ℚ) : FollowedPolyline × Iter :=
  let _ := predictDistance
  match (p.points.drop p.cur.m_ind).findIdx? (fun q => rect.contains q) with
  | some j =>
      let ind := p.cur.m_ind + j
      let it : Iter := ⟨p.points.getD ind (0, 0), ind, true⟩
      ({ p with cur := it }, it)
  | none => (p, ⟨p.cur.m_pt, p.cur.m_ind, false⟩)

/-- Route::MoveIterator (route.cpp:457): the prediction window, the search
rect sized by `max(m_matchingThresholdM, horizontalAccuracy)`, the update
of the full and (when valid) simplified trackers, and the validity of the
resulting cursor. -/
def Route.MoveIterator (geo : Geo) (info : GpsInfo) (r : Route) : Bool × Route :=
  let predictDistance : ℚ :=
    if 0 < r.m_currentTime ∧ info.m_hasSpeed then
      let deltaT := info.m_timestamp - r.m_currentTime
      if 0 < deltaT ∧ deltaT < kLocationTimeThreshold then info.m_speed * deltaT
      else -1
    else -1
  let rect := geo.metresToXY info.m_longitude info.m_latitude
      (max r.m_matchingThresholdM info.m_horizontalAccuracy)
  let updated := r.m_poly.UpdateProjectionByPrediction rect predictDistance
  let simplifiedNew :=
    if r.m_simplifiedPoly.IsValid then
      (r.m_simplifiedPoly.UpdateProjectionByPrediction rect predictDistance).1
    else r.m_simplifiedPoly
  (updated.2.m_isValid,
   { r with m_poly := updated.1, m_simplifiedPoly := simplifiedNew })

/-- One MoveIterator step as a state transformer, for iterating fixes. -/
def moveStep (geo : Geo) (r : Route) (info : GpsInfo) : Route :=
  (Route.MoveIterator geo info r).2

/-- The claim's reading of Route::GetCurrentTurn, from the spec's words:
"the first turn whose vertexIndex is greater than or equal to the cursor's
vertexIndex". -/
def specFirstTurnGE (turns : List TurnItem) (ind : ℕ) : Option TurnItem :=
  turns.find? fun t => decide (ind ≤ t.m_index)

/-- The claim's reading of the forward street scan, from the spec's words:
from position `k` skip consecutive empty-name entries; the first non-empty
name is returned only if its polyline distance from vertex `idx` is below
the 400 m threshold, else the empty name. -/
def specStreetNameFrom (geo : Geo) (r : Route) (idx k : ℕ) : String :=
  match (r.m_streets.drop k).find? (fun e => !(e.2 == "")) with
  | none => ""
  | some e =>
      if GetDistanceM geo r.m_poly.points (GetIterToIndex r.m_poly.points idx)
          (GetIterToIndex r.m_poly.points (max e.1 idx)) < kSteetNameLinkMeters
      then e.2 else ""

/-- The wire `turns` list per the spec's words, parametric in the path
metric `d` between vertex indices: one cumulative value per displayable
turn (vertex 0 and the last vertex excluded), each increment the path
distance from the previous displayable turn (or the route start) to this
turn. -/
def specTurnsLoop (d : ℕ → ℕ → ℚ) (polySz : ℕ) : List TurnItem → ℕ → ℚ → List ℚ
  | [], _, _ => []
  | t :: rest, formerDisp, acc =>
      if t.m_index = 0 ∨ t.m_index = polySz - 1 then
        specTurnsLoop d polySz rest formerDisp acc
      else
        let accNew := acc + d formerDisp t.m_index
        accNew :: specTurnsLoop d polySz rest t.m_index accNew

/-- The spec-side turns-distances list, starting from the route start. -/
def specTurnsDistances (d : ℕ → ℕ → ℚ) (polySz : ℕ) (ts : List TurnItem) : List ℚ :=
  specTurnsLoop d polySz ts 0 0

/-- The claim's reading of the wire `turns` values: cumulative path
distances in meters (the earth metric), one per displayable turn. -/
def specTurnsDistancesMeters (geo : Geo) (r : Route) : List ℚ :=
  specTurnsDistances (fun a b => distAlong geo.distOnEarth r.m_poly.points a b)
    r.m_poly.points.length r.m_turns

/-- The wire `turns` values the encoder actually emits, per the amended
claim: cumulative path distances in Mercator projection units. -/
def specTurnsDistancesMercator (geo : Geo) (r : Route) : List ℚ :=
  specTurnsDistances
    (fun a b => CalculateMercatorDistanceAlongPath geo a b r.m_poly.points)
    r.m_poly.points.length r.m_turns

/-- Absolute value on ℚ by case split (kernel-reducible, unlike the
lattice `abs`). -/
def qabs (q : ℚ) : ℚ := if q < 0 then -q else q

/-- A concrete geometry instance for evaluating the model: degree/Mercator
conversions are the identity-like maps and both metrics are the taxicab
distance. -/
def exGeoW : Geo :=
  { yToLat := fun y => y,
    xToLon := fun x => x,
    fromLatLon := fun la lo => (lo, la),
    distOnEarth := fun p q => qabs (p.1 - q.1) + qabs (p.2 - q.2),
    mercSeg := fun p q => qabs (p.1 - q.1) + qabs (p.2 - q.2),
    metresToXY := fun lo la m => ⟨lo - m, la - m, lo + m, la + m⟩,
    angleTo := fun _ _ => 0,
    radToDeg := fun a => a,
    angleToBearing := fun a => a }

/-- A geometry instance in which the earth metric (meters) and the planar
Mercator metric genuinely differ, as they do for the real primitives: one
Mercator unit here is 1000 meters. -/
def exGeoScaled : Geo :=
  { exGeoW with
      distOnEarth := fun p q => 1000 * (qabs (p.1 - q.1) + qabs (p.2 - q.2)) }

/-- A freshly constructed route with no geometry and empty tables (the
decode target and the empty-table example). -/
def freshRoute : Route :=
  { m_router := "vehicle",
    m_matchingThresholdM := 50,
    m_matchRoute := true,
    m_keepPedestrianInfo := false,
    m_poly := ⟨[], ⟨(0, 0), 0, false⟩⟩,
    m_simplifiedPoly := ⟨[], ⟨(0, 0), 0, false⟩⟩,
    m_name := "",
    m_currentTime := 0,
    m_turns := [],
    m_times := [],
    m_streets := [],
    m_absentCountries := [] }

/-- A plain turn instruction at vertex `i` with direction code `dir`. -/
def mkTurn (i : ℕ) (dir : ℤ) : TurnItem := ⟨i, dir, 0, false, 0, "", ""⟩

/-- A route with a valid two-point polyline and the cursor on vertex 0. -/
def exR1 : Route :=
  { freshRoute with
      m_poly := ⟨[(0, 0), (10, 0)], ⟨(0, 0), 0, true⟩⟩ }

/-- A fix 3 taxicab-meters from the cursor of `exR1` (within the 50 m
threshold). -/
def exLoc : GpsInfo :=
  { m_latitude := 1, m_longitude := 2, m_horizontalAccuracy := 5,
    m_speed := 0, m_hasSpeed := false, m_timestamp := 100, m_bearing := 0 }

/-- A fix far from every route used here (beyond the 50 m threshold). -/
def exLocFar : GpsInfo :=
  { exLoc with m_latitude := 500, m_longitude := 500 }

/-- A 42-vertex polyline along the x-axis. -/
def exPts42 : List Point := (List.range 42).map fun i => ((i : ℚ), 0)

/-- The turn table of the spec's lookahead example: turns at vertex
indices 5, 12 and 40. -/
def exTurns : List TurnItem := [mkTurn 5 1, mkTurn 12 2, mkTurn 40 3]

/-- The lookahead example with the cursor at vertex 8. -/
def exR3 : Route :=
  { freshRoute with
      m_poly := ⟨exPts42, ⟨(8, 0), 8, true⟩⟩,
      m_turns := exTurns }

/-- The lookahead example with the cursor exactly at vertex 12 (a turn's
own vertex). -/
def exR3mid : Route :=
  { exR3 with m_poly := ⟨exPts42, ⟨(12, 0), 12, true⟩⟩ }

/-- The lookahead example with the cursor beyond the last turn (vertex
41). -/
def exR3beyond : Route :=
  { exR3 with m_poly := ⟨exPts42, ⟨(41, 0), 41, true⟩⟩ }

/-- The round-trip example route: 3 points, 1 turn, 2 time checkpoints,
1 street and 1 absent country. -/
def exR4w : Route :=
  { freshRoute with
      m_poly := ⟨[(0, 0), (1, 0), (2, 0)], ⟨(0, 0), 0, true⟩⟩,
      m_turns := [mkTurn 1 12],
      m_times := [(1, 5), (2, 10)],
      m_streets := [(0, "Main St")],
      m_absentCountries := ["France"] }

/-- A route whose only time checkpoint is the all-zero pair. -/
def exR5zero : Route :=
  { freshRoute with
      m_poly := ⟨[(0, 0), (1, 0)], ⟨(0, 0), 0, true⟩⟩,
      m_times := [(0, 0)] }

/-- The zero-length time bracket example: the first two vertices coincide
and the first time checkpoint sits at vertex 1. -/
def exR6 : Route :=
  { freshRoute with
      m_poly := ⟨[(0, 0), (0, 0), (3, 0)], ⟨(0, 0), 0, true⟩⟩,
      m_times := [(1, 10), (2, 30)] }

/-- A single-entry street table (the undefined bracket-scan case). -/
def exR7cx : Route :=
  { freshRoute with
      m_poly := ⟨[(0, 0), (1, 0)], ⟨(0, 0), 0, true⟩⟩,
      m_streets := [(0, "Main St")] }

/-- The street-lookahead example: an unnamed entry at vertex 0 and
"Main St" at vertex 2, 350 taxicab-meters from vertex 0. -/
def exR7w : Route :=
  { freshRoute with
      m_poly := ⟨[(0, 0), (175, 0), (350, 0)], ⟨(0, 0), 0, true⟩⟩,
      m_streets := [(0, ""), (2, "Main St")] }

/-- A 4-vertex route with two displayable turns at vertices 1 and 2. -/
def exR8 : Route :=
  { freshRoute with
      m_poly := ⟨[(0, 0), (1, 0), (2, 0), (3, 0)], ⟨(0, 0), 0, true⟩⟩,
      m_turns := [mkTurn 1 1, mkTurn 2 2] }

/-- The bisection of `ubAuxF` on a window partitioned by `p` lands on the
boundary: everything before the result fails `p`, everything from the
result to the window's end satisfies it. -/
theorem ubAuxF_spec {α : Type} [Inhabited α] (p : α → Bool) (xs : List α) :
    ∀ fuel count lo, count ≤ fuel →
      (∀ i j, lo ≤ i → i ≤ j → j < lo + count →
        p (xs.getD i default) = true → p (xs.getD j default) = true) →
      lo ≤ ubAuxF p xs fuel lo count ∧ ubAuxF p xs fuel lo count ≤ lo + count ∧
      (∀ i, lo ≤ i → i < ubAuxF p xs fuel lo count → p (xs.getD i default) = false) ∧
      (∀ i, ubAuxF p xs fuel lo count ≤ i → i < lo + count →
        p (xs.getD i default) = true) := by
  intro fuel
  induction fuel with
  | zero =>
      intro count lo hc _
      have hc0 : count = 0 := Nat.le_zero.mp hc
      subst hc0
      simp only [ubAuxF]
      exact ⟨le_rfl, by omega, fun i h1 h2 => absurd h2 (by omega),
             fun i h1 h2 => absurd h2 (by omega)⟩
  | succ fuel ih =>
      intro count lo hc hmono
      by_cases hcz : count = 0
      · subst hcz
        have hz : ubAuxF p xs (fuel + 1) lo 0 = lo := by simp [ubAuxF]
        rw [hz]
        exact ⟨le_rfl, by omega, fun i h1 h2 => absurd h2 (by omega),
               fun i h1 h2 => absurd h2 (by omega)⟩
      · have hstep : count / 2 < count := Nat.div_lt_self (by omega) (by omega)
        simp only [ubAuxF, if_neg hcz]
        by_cases hp : p (xs.getD (lo + count / 2) default) = true
        · rw [if_pos hp]
          obtain ⟨h1, h2, h3, h4⟩ := ih (count / 2) lo (by omega)
            (fun i j hi hij hj hpi => hmono i j hi hij (by omega) hpi)
          refine ⟨h1, by omega, h3, ?_⟩
          intro i hri hi
          by_cases hjs : i < lo + count / 2
          · exact h4 i hri hjs
          · exact hmono (lo + count / 2) i (by omega) (by omega) hi hp
        · rw [if_neg hp]
          have hpf : p (xs.getD (lo + count / 2) default) = false :=
            Bool.eq_false_iff.mpr hp
          obtain ⟨h1, h2, h3, h4⟩ := ih (count - count / 2 - 1) (lo + count / 2 + 1)
            (by omega)
            (fun i j hi hij hj hpi => hmono i j (by omega) hij (by omega) hpi)
          refine ⟨by omega, by omega, ?_, ?_⟩
          · intro i hloi hir
            by_cases hcase : lo + count / 2 + 1 ≤ i
            · exact h3 i hcase hir
            · cases hpi : p (xs.getD i default) with
              | false => rfl
              | true =>
                  exact absurd (hmono i (lo + count / 2) hloi (by omega) (by omega) hpi)
                    (by simp only [Bool.not_eq_true]; exact hpf)
          · intro i hri hi
            exact h4 i hri (by omega)

/-- upper_bound over a list partitioned by `p`: nothing before the result
satisfies `p`, everything from the result on does. -/
theorem upperBound_spec {α : Type} [Inhabited α] (p : α → Bool) (xs : List α)
    (hmono : ∀ i j, i ≤ j → j < xs.length →
      p (xs.getD i default) = true → p (xs.getD j default) = true) :
    upperBound p xs ≤ xs.length ∧
    (∀ i, i < upperBound p xs → p (xs.getD i default) = false) ∧
    (∀ i, upperBound p xs ≤ i → i < xs.length → p (xs.getD i default) = true) := by
  obtain ⟨h1, h2, h3, h4⟩ := ubAuxF_spec p xs xs.length xs.length 0 le_rfl
    (fun i j hi hij hj hpi => hmono i j hij (by omega) hpi)
  exact ⟨by simpa using h2, fun i hir => h3 i (Nat.zero_le i) hir,
         fun i h5 h6 => h4 i h5 (by omega)⟩

/-- upper_bound lands on the given boundary position `k` when everything
before `k` fails `p` and `k` itself (if in range) satisfies it. -/
theorem upperBound_eq {α : Type} [Inhabited α] (p : α → Bool) (xs : List α) (k : ℕ)
    (hmono : ∀ i j, i ≤ j → j < xs.length →
      p (xs.getD i default) = true → p (xs.getD j default) = true)
    (hk : k ≤ xs.length)
    (hbefore : ∀ i, i < k → p (xs.getD i default) = false)
    (hat : k < xs.length → p (xs.getD k default) = true) :
    upperBound p xs = k := by
  obtain ⟨h1, h2, h3⟩ := upperBound_spec p xs hmono
  rcases lt_trichotomy (upperBound p xs) k with h | h | h
  · have ht := h3 (upperBound p xs) le_rfl (lt_of_lt_of_le h hk)
    rw [hbefore _ h] at ht
    exact absurd ht (by decide)
  · exact h
  · have ht := h2 k h
    rw [hat (lt_of_lt_of_le h h1)] at ht
    exact absurd ht (by decide)

/-- A table sorted ascending on a natural key makes the upper_bound
predicate upward closed. -/
theorem pairwise_key_mono {α : Type} [Inhabited α] (key : α → ℕ) (xs : List α) (v : ℕ)
    (hs : List.Pairwise (fun a b => key a ≤ key b) xs) :
    ∀ i j, i ≤ j → j < xs.length →
      decide (v < key (xs.getD i default)) = true →
      decide (v < key (xs.getD j default)) = true := by
  intro i j hij hj hpi
  rcases eq_or_lt_of_le hij with rfl | hlt
  · exact hpi
  · have hi : i < xs.length := lt_trans hlt hj
    have hle := List.pairwise_iff_get.mp hs ⟨i, hi⟩ ⟨j, hj⟩ hlt
    rw [List.getD_eq_getElem xs default hi] at hpi
    rw [List.getD_eq_getElem xs default hj]
    simp only [List.get_eq_getElem] at hle
    simp only [decide_eq_true_eq] at hpi ⊢
    omega

/-- C10: for every street table containing exactly one entry and every
cursor, the bracket scan of GetCurrentStreetNameIterAfter advances its
scanning iterator past the end before the loop's first dereference: the
loop condition reads past the end of the table (modelled `none`) instead
of returning a defined result, so the emptiness guard does not make the
scan total. -/
theorem c10_single_entry_scan_oob (r : Route) (iter : Iter)
    (h : r.m_streets.length = 1) :
    r.GetCurrentStreetNameIterAfter iter = none := by
  obtain ⟨e, he⟩ : ∃ e, r.m_streets = [e] := by
    match hm : r.m_streets with
    | [e] => exact ⟨e, rfl⟩
    | [] => rw [hm] at h; simp at h
    | a :: b :: t => rw [hm] at h; simp at h
  unfold Route.GetCurrentStreetNameIterAfter
  rw [he]
  simp [streetScanAux]

/-- Witness for C10 at the concrete single-entry table of `exR7cx`. -/
theorem c10_witness :
    exR7cx.m_streets.length = 1 ∧
      exR7cx.GetCurrentStreetNameIterAfter ⟨(0, 0), 0, true⟩ = none :=
  ⟨by decide, c10_single_entry_scan_oob exR7cx ⟨(0, 0), 0, true⟩ (by decide)⟩

/-- C9: with an empty timing table (or empty polyline) the time-remaining
query returns 0; with an empty maneuver table the current-turn query
returns not-found (false); with an empty street table the street bracket
query returns the end-of-table iterator — no fault is signalled. -/
theorem c9_empty_tables (geo : Geo) (r : Route) :
    ((r.m_times = [] ∨ r.m_poly.points = []) → r.GetCurrentTimeToEndSec geo = 0) ∧
    (r.m_turns = [] → r.GetCurrentTurn2 geo = none) ∧
    (r.m_streets = [] →
      r.GetCurrentStreetNameIterAfter r.m_poly.cur = some r.m_streets.length) := by
  refine ⟨fun h => ?_, fun h => ?_, fun h => ?_⟩
  · unfold Route.GetCurrentTimeToEndSec
    rcases h with h | h <;> rw [h] <;> simp
  · unfold Route.GetCurrentTurn2 Route.GetCurrentTurnIterPos upperBound
    rw [h]
    simp [ubAuxF]
  · unfold Route.GetCurrentStreetNameIterAfter
    rw [h]
    simp

/-- Witness for C9 at the fresh route, whose three tables and polyline are
all empty. -/
theorem c9_witness :
    freshRoute.GetCurrentTimeToEndSec exGeoW = 0 ∧
      freshRoute.GetCurrentTurn2 exGeoW = none ∧
      freshRoute.GetCurrentStreetNameIterAfter freshRoute.m_poly.cur = some 0 :=
  ⟨(c9_empty_tables exGeoW freshRoute).1 (Or.inl rfl),
   (c9_empty_tables exGeoW freshRoute).2.1 rfl,
   (c9_empty_tables exGeoW freshRoute).2.2 rfl⟩

/-- C1: on a valid polyline, MatchLocationToRoute snaps the fix onto the
route exactly when the fix's distance to the projected cursor point is
strictly below the matching threshold — overwriting the fix's latitude and
longitude with the cursor point and emitting (point, vertex index,
distance-from-begin) — and leaves both the fix and the matching info
unmodified when the distance is at or above the threshold. -/
theorem c1_matching_threshold (geo : Geo) (r : Route) (location : GpsInfo)
    (info : Option (Point × ℕ × ℚ)) (hv : r.m_poly.IsValid = true) :
    (geo.distOnEarth r.m_poly.cur.m_pt
        (geo.fromLatLon location.m_latitude location.m_longitude) <
          r.m_matchingThresholdM →
      (r.MatchLocationToRoute geo location info).1.m_latitude =
          geo.yToLat r.m_poly.cur.m_pt.2 ∧
        (r.MatchLocationToRoute geo location info).1.m_longitude =
          geo.xToLon r.m_poly.cur.m_pt.1 ∧
        (r.MatchLocationToRoute geo location info).2 =
          some (r.m_poly.cur.m_pt, r.m_poly.cur.m_ind,
            r.GetMercatorDistanceFromBegin geo)) ∧
    (r.m_matchingThresholdM ≤ geo.distOnEarth r.m_poly.cur.m_pt
        (geo.fromLatLon location.m_latitude location.m_longitude) →
      r.MatchLocationToRoute geo location info = (location, info)) := by
  constructor
  · intro hlt
    unfold Route.MatchLocationToRoute
    rw [hv]
    simp only [if_true]
    rw [if_pos hlt]
    exact ⟨rfl, rfl, rfl⟩
  · intro hge
    unfold Route.MatchLocationToRoute
    rw [hv]
    simp only [if_true]
    rw [if_neg (not_lt.mpr hge)]

unseal Rat.add Rat.sub Rat.mul Rat.inv in
/-- Witness for C1: the fix of `exLoc` lies 3 m from the cursor of `exR1`
(threshold 50 m) and is snapped; the matching info is emitted. -/
theorem c1_witness :
    exR1.m_poly.IsValid = true ∧
      (exR1.MatchLocationToRoute exGeoW exLoc none).2 =
        some (exR1.m_poly.cur.m_pt, exR1.m_poly.cur.m_ind,
          exR1.GetMercatorDistanceFromBegin exGeoW) :=
  ⟨by decide,
   ((c1_matching_threshold exGeoW exR1 exLoc none (by decide)).1 (by decide)).2.2⟩

/-- C5 (amended): encode writes each time checkpoint as {time, index}, while
decode reads the checkpoint's time from "latitude" and its index from
"longitude" — members the encoder never writes, which the bundled rapidjson
resolves to the zero-valued null — so the round trip maps every time table
to a same-length table of (0, 0) entries, and fails to reproduce any time
table containing a nonzero entry. -/
theorem c5_times_field_mismatch (geo : Geo) (r base : Route) :
    (Route.FromJson geo (r.GetMeRouteAsJson geo) base).m_times =
      List.replicate r.m_times.length ((0 : ℕ), (0 : ℚ)) ∧
    ((∃ e ∈ r.m_times, e ≠ ((0 : ℕ), (0 : ℚ))) →
      (Route.FromJson geo (r.GetMeRouteAsJson geo) base).m_times ≠ r.m_times) := by
  have hrep : (Route.FromJson geo (r.GetMeRouteAsJson geo) base).m_times =
      List.replicate r.m_times.length ((0 : ℕ), (0 : ℚ)) := by
    have hmap : (Route.FromJson geo (r.GetMeRouteAsJson geo) base).m_times =
        r.m_times.map (fun _ => ((0 : ℕ), (0 : ℚ))) := by
      show (asArr (getMem (r.GetMeRouteAsJson geo) "times")).map _ =
        r.m_times.map (fun _ => ((0 : ℕ), (0 : ℚ)))
      rw [show getMem (r.GetMeRouteAsJson geo) "times" =
          JVal.arr (r.m_times.map fun ti =>
            JVal.obj [("time", JVal.num ti.2), ("index", JVal.num (ti.1 : ℚ))])
        from rfl]
      show (r.m_times.map _).map _ = _
      rw [List.map_map]
      rfl
    rw [hmap, List.map_const']
  refine ⟨hrep, fun hex hEq => ?_⟩
  obtain ⟨e, he, hne⟩ := hex
  rw [hEq] at hrep
  rw [hrep] at he
  exact hne (List.eq_of_mem_replicate he)

/-- Witness for C5 at the round-trip example route, whose time table holds
a nonzero entry and is therefore lost. -/
theorem c5_witness :
    (∃ e ∈ exR4w.m_times, e ≠ ((0 : ℕ), (0 : ℚ))) ∧
      (Route.FromJson exGeoW (exR4w.GetMeRouteAsJson exGeoW) freshRoute).m_times ≠
        exR4w.m_times :=
  ⟨by decide, (c5_times_field_mismatch exGeoW exR4w freshRoute).2 (by decide)⟩

/-- Counterexample for C5 as frozen: the claim asserts the round trip
reproduces no non-empty time table, but the table whose only checkpoint is
the all-zero pair is reproduced exactly. -/
theorem c5_cx_zero_table :
    (Route.FromJson exGeoW (exR5zero.GetMeRouteAsJson exGeoW) freshRoute).m_times =
      exR5zero.m_times ∧ exR5zero.m_times ≠ [] := by
  exact ⟨by decide, by decide⟩

/-- The floor of an integer cast into ℚ, for the decode of integer-valued
wire members. -/
theorem ratFloor_intCast (z : ℤ) : ((z : ℚ)).floor = z := by
  rw [Rat.floor_def']
  simp

/-- Decoding the `instructions` array written by the encoder restores every
turn's direction code. -/
theorem instr_roundtrip_turn_codes (r : Route) :
    ∀ (ts : List TurnItem) (i previousIndex : ℕ),
      ((instrList r ts i previousIndex).map fun item =>
          ({ m_index := toIdx (getInt (getMem item "endInterval")),
             m_turn := getInt (getMem item "turnDirection"),
             m_exitNum := toIdx (getInt (getMem item "exitNumber")),
             m_keepAnyway := getBoolJ (getMem item "keepAnyways"),
             m_pedestrianTurn := getInt (getMem item "pedestrianDirection"),
             m_sourceName := getStringJ (getMem item "streetSource"),
             m_targetName := getStringJ (getMem item "streetTarget") } : TurnItem)).map
        TurnItem.m_turn = ts.map TurnItem.m_turn := by
  intro ts
  induction ts with
  | nil => intro i p; rfl
  | cons t rest ih =>
      intro i p
      simp only [instrList, List.map_cons, List.cons.injEq]
      exact ⟨ratFloor_intCast t.m_turn, ih (i + 1) t.m_index⟩

/-- C4 (amended): on every route whose time table is at least as long as
its turn table (the encoder's `instructions` loop indexes the time table
per turn), the encode-then-decode round trip reproduces the polyline point
count and every turn-direction code, but not the absent-country set:
FromJson never reads `absentCountries`, leaving the decode target's set
unchanged (empty for a fresh route). -/
theorem c4_roundtrip_amended (geo : Geo) (r base : Route)
    (h : r.m_turns.length ≤ r.m_times.length) :
    (Route.FromJson geo (r.GetMeRouteAsJson geo) base).m_poly.points.length =
      r.m_poly.points.length ∧
    (Route.FromJson geo (r.GetMeRouteAsJson geo) base).m_turns.map TurnItem.m_turn =
      r.m_turns.map TurnItem.m_turn ∧
    (Route.FromJson geo (r.GetMeRouteAsJson geo) base).m_absentCountries =
      base.m_absentCountries := by
  refine ⟨?_, ?_, rfl⟩
  · show ((asArr (getMem (r.GetMeRouteAsJson geo) "points")).map _).length = _
    rw [show getMem (r.GetMeRouteAsJson geo) "points" =
        JVal.arr (r.m_poly.points.map fun p =>
          JVal.obj [("latitude", JVal.num (geo.yToLat p.2)),
                    ("longitude", JVal.num (geo.xToLon p.1))]) from rfl]
    show ((r.m_poly.points.map _).map _).length = _
    rw [List.length_map, List.length_map]
  · show ((asArr (getMem (r.GetMeRouteAsJson geo) "instructions")).map _).map
        TurnItem.m_turn = _
    rw [show getMem (r.GetMeRouteAsJson geo) "instructions" =
        JVal.arr (instrList r r.m_turns 0 0) from rfl]
    show ((instrList r r.m_turns 0 0).map _).map TurnItem.m_turn = _
    exact instr_roundtrip_turn_codes r r.m_turns 0 0

/-- Witness for C4 at the round-trip example route (3 points, 1 turn with
direction code 12, 2 time checkpoints, 1 street, 1 absent country). -/
theorem c4_witness :
    exR4w.m_turns.length ≤ exR4w.m_times.length ∧
      (Route.FromJson exGeoW (exR4w.GetMeRouteAsJson exGeoW) freshRoute).m_poly.points.length =
        exR4w.m_poly.points.length :=
  ⟨by decide, (c4_roundtrip_amended exGeoW exR4w freshRoute (by decide)).1⟩

/-- Counterexample for C4 as frozen: the round trip does not reproduce the
absent-country set — decoding the document of a route with one absent
country into a fresh route leaves the set empty. -/
theorem c4_cx_absent_countries :
    (Route.FromJson exGeoW (exR4w.GetMeRouteAsJson exGeoW) freshRoute).m_absentCountries ≠
        exR4w.m_absentCountries ∧
      (Route.FromJson exGeoW (exR4w.GetMeRouteAsJson exGeoW) freshRoute).m_absentCountries =
        [] ∧
      exR4w.m_absentCountries = ["France"] := by
  exact ⟨by decide, rfl, rfl⟩

/-- C3 (amended): on an ascending turn table, GetCurrentTurn returns the
first turn whose vertexIndex is strictly greater than the cursor's vertex
index (std::upper_bound, not ≥); in particular, for turns at [5, 12, 40]
and a cursor at vertex 8 it resolves to the turn at index 12, GetNextTurn
then resolves to index 40, and beyond index 40 GetNextTurn reports
not-found. -/
theorem c3_turn_lookahead_amended :
    (∀ r : Route,
      List.Pairwise (fun a b : TurnItem => a.m_index ≤ b.m_index) r.m_turns →
      r.GetCurrentTurnIterPos ≤ r.m_turns.length ∧
      (∀ i, i < r.GetCurrentTurnIterPos →
        (r.m_turns.getD i default).m_index ≤ r.m_poly.cur.m_ind) ∧
      (r.GetCurrentTurnIterPos < r.m_turns.length →
        r.m_poly.cur.m_ind <
          (r.m_turns.getD r.GetCurrentTurnIterPos default).m_index)) ∧
    (exR3.m_turns.get? exR3.GetCurrentTurnIterPos).map TurnItem.m_index = some 12 ∧
    (exR3.GetNextTurn exGeoW).map (fun x => x.2.m_index) = some 40 ∧
    exR3beyond.GetNextTurn exGeoW = none := by
  constructor
  · intro r hs
    unfold Route.GetCurrentTurnIterPos
    have hmono := pairwise_key_mono TurnItem.m_index r.m_turns r.m_poly.cur.m_ind hs
    obtain ⟨h1, h2, h3⟩ :=
      upperBound_spec (fun t => decide (r.m_poly.cur.m_ind < t.m_index)) r.m_turns hmono
    refine ⟨h1, fun i hi => ?_, fun hlt => ?_⟩
    · have hfalse := h2 i hi
      simp only [decide_eq_false_iff_not, not_lt] at hfalse
      exact hfalse
    · have htrue := h3 _ le_rfl hlt
      simp only [decide_eq_true_eq] at htrue
      exact htrue
  · exact ⟨by decide, by decide, by decide⟩

/-- Witness for C3 at the ascending example table [5, 12, 40]. -/
theorem c3_witness :
    List.Pairwise (fun a b : TurnItem => a.m_index ≤ b.m_index) exR3.m_turns ∧
      exR3.GetCurrentTurnIterPos ≤ exR3.m_turns.length :=
  ⟨by decide, (c3_turn_lookahead_amended.1 exR3 (by decide)).1⟩

/-- Counterexample for C3 as frozen: with turns at [5, 12, 40] and the
cursor exactly at vertex 12, the first turn whose vertexIndex is ≥ the
cursor's is the turn at 12, but GetCurrentTurn resolves to the turn at 40
(upper_bound is strict). -/
theorem c3_cx_cursor_on_turn :
    (specFirstTurnGE exR3mid.m_turns exR3mid.m_poly.cur.m_ind).map TurnItem.m_index =
        some 12 ∧
      (exR3mid.m_turns.get? exR3mid.GetCurrentTurnIterPos).map TurnItem.m_index =
        some 40 ∧
      exR3mid.m_turns.get? exR3mid.GetCurrentTurnIterPos ≠
        specFirstTurnGE exR3mid.m_turns exR3mid.m_poly.cur.m_ind := by
  exact ⟨by decide, by decide, by decide⟩

/-- C6: on an ascending time table with the cursor inside the checkpoint
bracket whose upper end is entry `k`, a numerically zero bracket distance
makes GetCurrentTimeToEndSec return totalSeconds minus the upper
checkpoint's cumulative seconds (truncated to uint32) — the
non-interpolated residual branch, which performs no division. -/
theorem c6_zero_bracket (geo : Geo) (r : Route) (k : ℕ) (nxt : ℕ × ℚ)
    (hs : List.Pairwise (fun a b : ℕ × ℚ => a.1 ≤ b.1) r.m_times)
    (hp : r.m_poly.points ≠ [])
    (hk : r.m_times.get? k = some nxt)
    (hin : r.m_poly.cur.m_ind < nxt.1)
    (hprev : ∀ j, j < k → (r.m_times.getD j (0, 0)).1 ≤ r.m_poly.cur.m_ind)
    (hzero : GetDistanceM geo r.m_poly.points
        (GetIterToIndex r.m_poly.points
          (if 0 < k then (r.m_times.getD (k - 1) (0, 0)).1 else 0))
        (GetIterToIndex r.m_poly.points nxt.1) = 0) :
    r.GetCurrentTimeToEndSec geo = toU32 ((r.GetTotalTimeSec : ℚ) - nxt.2) := by
  obtain ⟨hklen, hgetk⟩ := List.get?_eq_some.mp hk
  have hgd : r.m_times.getD k (0, 0) = nxt := by
    rw [List.getD_eq_getElem _ _ hklen]
    rw [← hgetk]
    simp [List.get_eq_getElem]
  have hub : upperBound (fun item : ℕ × ℚ => decide (r.m_poly.cur.m_ind < item.1))
      r.m_times = k := by
    apply upperBound_eq _ _ k
      (pairwise_key_mono Prod.fst r.m_times r.m_poly.cur.m_ind hs) (le_of_lt hklen)
    · intro i hi
      simp only [decide_eq_false_iff_not, not_lt]
      exact hprev i hi
    · intro _
      have : (r.m_times.getD k default) = nxt := hgd
      rw [this]
      simp only [decide_eq_true_eq]
      exact hin
  have hne : r.m_times ≠ [] := by
    intro h0
    rw [h0] at hklen
    simp at hklen
  have hlen0 : r.m_poly.points.length ≠ 0 := by
    simpa [List.length_eq_zero] using hp
  simp only [Route.GetCurrentTimeToEndSec, hub, hk]
  rw [if_neg (by simp [List.isEmpty_iff, hne, hlen0])]
  rw [hzero]
  simp

unseal Rat.add Rat.sub Rat.mul Rat.inv in
/-- Witness for C6: on `exR6` the bracket [start, vertex 1) has zero length
(the first two vertices coincide) and the query returns 30 − 10 = 20. -/
theorem c6_witness : exR6.GetCurrentTimeToEndSec exGeoW = 20 := by
  have h := c6_zero_bracket exGeoW exR6 0 (1, 10) (by decide) (by decide) (by decide)
    (by decide) (fun j hj => absurd hj (by omega)) (by decide)
  rw [h]
  decide

/-- On a street table with the scanning iterator strictly inside it, the
bracket scan never reaches its undefined dereference. -/
theorem streetScanAux_defined (streets : List (ℕ × String)) (ind : ℕ) :
    ∀ (suffix : List (ℕ × String)) (curIt : ℕ),
      suffix = streets.drop curIt → curIt < streets.length →
      ∃ k, streetScanAux ind suffix streets.length curIt = some k := by
  intro suffix
  induction suffix with
  | nil =>
      intro curIt hdrop hlt
      exfalso
      have hlen := congrArg List.length hdrop
      simp only [List.length_nil, List.length_drop] at hlen
      omega
  | cons e rest ih =>
      intro curIt hdrop hlt
      simp only [streetScanAux]
      by_cases h1 : e.1 < ind
      · rw [if_pos h1]
        by_cases h2 : curIt + 1 = streets.length
        · rw [if_pos h2]
          exact ⟨_, rfl⟩
        · rw [if_neg h2]
          apply ih (curIt + 1) ?_ (by omega)
          have htail : rest = (streets.drop curIt).tail := by
            rw [← hdrop]
            rfl
          rw [htail, List.tail_drop]
      · rw [if_neg h1]
        split
        · exact ⟨_, rfl⟩
        · exact ⟨_, rfl⟩

/-- The iterator-based forward scan over a street-table suffix equals the
first-non-empty-name search followed by the lookahead threshold test. -/
theorem streetForwardAux_eq_find (geo : Geo) (pts : List Point) (polyInd : ℕ) :
    ∀ l : List (ℕ × String),
      streetForwardAux geo pts polyInd l =
        match l.find? (fun e => !(e.2 == "")) with
        | none => ""
        | some e =>
            if GetDistanceM geo pts (GetIterToIndex pts polyInd)
                (GetIterToIndex pts (max e.1 polyInd)) < kSteetNameLinkMeters
            then e.2 else "" := by
  intro l
  induction l with
  | nil => rfl
  | cons e rest ih =>
      by_cases he : e.2 = ""
      · simp only [streetForwardAux, if_pos he]
        rw [List.find?_cons_of_neg _ (by simp [he])]
        exact ih
      · simp only [streetForwardAux, if_neg he]
        rw [List.find?_cons_of_pos _ (by simp [he])]

/-- C7 (amended): on every street table that does not consist of exactly
one entry (on which the bracket scan is undefined, see C10), the
street-after query is defined and returns the first non-empty street name
at or after the bracket position exactly when its polyline distance from
the query vertex is below the 400 m lookahead threshold, and the empty
string when that name lies at or beyond the threshold or no non-empty name
exists. -/
theorem c7_street_lookahead_amended (geo : Geo) (r : Route) (idx : ℕ)
    (h : r.m_streets.length ≠ 1) :
    ∃ k, r.GetCurrentStreetNameIterAfter (GetIterToIndex r.m_poly.points idx) =
        some k ∧
      r.GetStreetNameAfterIdx geo idx = some (specStreetNameFrom geo r idx k) := by
  by_cases h0 : r.m_streets.isEmpty
  · refine ⟨r.m_streets.length, ?_, ?_⟩
    · unfold Route.GetCurrentStreetNameIterAfter
      rw [if_pos h0]
    · unfold Route.GetStreetNameAfterIdx Route.GetCurrentStreetNameIterAfter
      rw [if_pos h0]
      simp [specStreetNameFrom, List.drop_length]
  · have hne : r.m_streets ≠ [] := by simpa [List.isEmpty_iff] using h0
    have hpos : 0 < r.m_streets.length := List.length_pos.mpr hne
    have hlen : 1 < r.m_streets.length := by omega
    obtain ⟨k, hk⟩ := streetScanAux_defined r.m_streets idx (r.m_streets.drop 1) 1
      rfl hlen
    have hiter : r.GetCurrentStreetNameIterAfter
        (GetIterToIndex r.m_poly.points idx) = some k := by
      unfold Route.GetCurrentStreetNameIterAfter
      rw [if_neg h0]
      exact hk
    refine ⟨k, hiter, ?_⟩
    unfold Route.GetStreetNameAfterIdx
    rw [hiter]
    by_cases hkend : k = r.m_streets.length
    · simp only [if_pos hkend, hkend]
      simp [specStreetNameFrom, List.drop_length]
    · simp only [if_neg hkend]
      rw [streetForwardAux_eq_find]
      rfl

unseal Rat.add Rat.sub Rat.mul Rat.inv in
/-- Witness for C7: on the two-entry table of `exR7w` the name "Main St"
lies 350 m ahead (threshold 400 m) and is returned. -/
theorem c7_witness :
    exR7w.m_streets.length ≠ 1 ∧
      exR7w.GetStreetNameAfterIdx exGeoW 0 = some "Main St" := by
  refine ⟨by decide, ?_⟩
  obtain ⟨k, hk1, hk2⟩ := c7_street_lookahead_amended exGeoW exR7w 0 (by decide)
  have h0 : exR7w.GetCurrentStreetNameIterAfter
      (GetIterToIndex exR7w.m_poly.points 0) = some 0 := by decide
  have hk0 : k = 0 := Option.some.inj (hk1.symm.trans h0)
  subst hk0
  rw [hk2]
  decide

/-- Counterexample for C7 as frozen: on the single-entry table of `exR7cx`
the claim's reading returns "Main St" (distance 0 is below the threshold),
but GetStreetNameAfterIdx reads past the end of the table (none) instead
of returning it. -/
theorem c7_cx_single_entry :
    exR7cx.GetStreetNameAfterIdx exGeoW 0 = none ∧
      specStreetNameFrom exGeoW exR7cx 0 0 = "Main St" := by
  exact ⟨by decide, by decide⟩

/-- On an ascending, in-range turn table, the raw-previous-turn increment
of GetTurnsDistances coincides with the previous-displayable-turn
increment of the spec's reading: the two loops produce the same list. -/
theorem turnsLoop_eq_spec (geo : Geo) (pts : List Point) (polySz : ℕ) :
    ∀ (ts : List TurnItem) (prev : Option TurnItem) (acc : ℚ) (fd : ℕ),
      List.Pairwise (fun a b : TurnItem => a.m_index ≤ b.m_index) ts →
      (∀ t ∈ ts, t.m_index < polySz) →
      (∀ t ∈ ts, prevIdx prev ≤ t.m_index) →
      (fd = prevIdx prev ∨ ∀ t ∈ ts, t.m_index = 0 ∨ t.m_index = polySz - 1) →
      turnsDistLoop geo pts polySz ts prev acc =
        specTurnsLoop (fun a b => CalculateMercatorDistanceAlongPath geo a b pts)
          polySz ts fd acc := by
  intro ts
  induction ts with
  | nil => intro prev acc fd _ _ _ _; rfl
  | cons t rest ih =>
      intro prev acc fd hpair hbnd hfirst hfd
      obtain ⟨hhead, htail⟩ := List.pairwise_cons.mp hpair
      have hbndt : ∀ x ∈ rest, x.m_index < polySz :=
        fun x hx => hbnd x (List.mem_cons_of_mem t hx)
      have hheadp : ∀ x ∈ rest, prevIdx (some t) ≤ x.m_index := by
        intro x hx
        simpa [prevIdx] using hhead x hx
      by_cases hskip : t.m_index = 0 ∨ t.m_index = polySz - 1
      · simp only [turnsDistLoop, specTurnsLoop, if_pos hskip]
        rcases hfd with hfdl | hfdr
        · by_cases h0 : t.m_index = 0
          · have hprev0 : prevIdx prev = 0 := by
              have := hfirst t (List.mem_cons_self t rest)
              omega
            apply ih (some t) acc fd htail hbndt hheadp
            left
            show fd = t.m_index
            rw [hfdl, hprev0, h0]
          · have hlast : t.m_index = polySz - 1 := by tauto
            apply ih (some t) acc fd htail hbndt hheadp
            right
            intro x hx
            have h1 := hhead x hx
            have h2 := hbndt x hx
            right
            omega
        · apply ih (some t) acc fd htail hbndt hheadp
          right
          exact fun x hx => hfdr x (List.mem_cons_of_mem t hx)
      · have hfdl : fd = prevIdx prev := by
          rcases hfd with hfdl | hfdr
          · exact hfdl
          · exact absurd (hfdr t (List.mem_cons_self t rest)) hskip
        simp only [turnsDistLoop, specTurnsLoop, if_neg hskip]
        rw [← hfdl]
        exact congrArg _ (ih (some t)
          (acc + CalculateMercatorDistanceAlongPath geo fd t.m_index pts) t.m_index
          htail hbndt hheadp (Or.inl rfl))

/-- The spec loop emits exactly one value per displayable turn. -/
theorem specTurnsLoop_length (d : ℕ → ℕ → ℚ) (polySz : ℕ) :
    ∀ (ts : List TurnItem) (fd : ℕ) (acc : ℚ),
      (specTurnsLoop d polySz ts fd acc).length =
        (ts.filter fun t =>
          !(decide (t.m_index = 0 ∨ t.m_index = polySz - 1))).length := by
  intro ts
  induction ts with
  | nil => intro fd acc; rfl
  | cons t rest ih =>
      intro fd acc
      by_cases hskip : t.m_index = 0 ∨ t.m_index = polySz - 1
      · simp only [specTurnsLoop, if_pos hskip, List.filter_cons]
        rw [show (!(decide (t.m_index = 0 ∨ t.m_index = polySz - 1))) = false by
          simp [hskip]]
        simp [ih]
      · simp only [specTurnsLoop, if_neg hskip, List.filter_cons]
        rw [show (!(decide (t.m_index = 0 ∨ t.m_index = polySz - 1))) = true by
          simp [hskip]]
        simp [ih]

/-- C8 (amended): on an ascending, in-range turn table, the `turns` array
of the encoded wire document holds exactly one value per displayable turn
(vertex 0 and the last vertex excluded), each value the cumulative path
distance in Mercator projection units (not meters) with each increment
measured from the previous displayable turn (or the route start for the
first one) to this turn. -/
theorem c8_turns_distances_amended (geo : Geo) (r : Route)
    (hs : List.Pairwise (fun a b : TurnItem => a.m_index ≤ b.m_index) r.m_turns)
    (hb : ∀ t ∈ r.m_turns, t.m_index < r.m_poly.points.length) :
    asArr (getMem (r.GetMeRouteAsJson geo) "turns") =
      (r.GetTurnsDistances geo).map JVal.num ∧
    r.GetTurnsDistances geo = specTurnsDistancesMercator geo r ∧
    (r.GetTurnsDistances geo).length =
      (r.m_turns.filter fun t =>
        !(decide (t.m_index = 0 ∨
            t.m_index = r.m_poly.points.length - 1))).length := by
  have hloop : r.GetTurnsDistances geo = specTurnsDistancesMercator geo r := by
    unfold Route.GetTurnsDistances specTurnsDistancesMercator specTurnsDistances
    exact turnsLoop_eq_spec geo r.m_poly.points r.m_poly.points.length r.m_turns
      none 0 0 hs hb (fun t _ => Nat.zero_le _) (Or.inl rfl)
  refine ⟨rfl, hloop, ?_⟩
  rw [hloop]
  exact specTurnsLoop_length _ _ r.m_turns 0 0

unseal Rat.add Rat.sub Rat.mul Rat.inv in
/-- Witness for C8 at the 4-vertex route with displayable turns at
vertices 1 and 2. -/
theorem c8_witness :
    (List.Pairwise (fun a b : TurnItem => a.m_index ≤ b.m_index) exR8.m_turns) ∧
      (∀ t ∈ exR8.m_turns, t.m_index < exR8.m_poly.points.length) ∧
      exR8.GetTurnsDistances exGeoScaled = specTurnsDistancesMercator exGeoScaled exR8 :=
  ⟨by decide, by decide,
   (c8_turns_distances_amended exGeoScaled exR8 (by decide) (by decide)).2.1⟩

unseal Rat.add Rat.sub Rat.mul Rat.inv in
/-- Counterexample for C8 as frozen: under a geometry whose earth metric is
1000 meters per Mercator unit, the encoded `turns` values are [1, 2]
(Mercator units) while the claim's meters reading is [1000, 2000] — the
wire values are not path distances in meters. -/
theorem c8_cx_mercator_not_meters :
    (asArr (getMem (exR8.GetMeRouteAsJson exGeoScaled) "turns")).map getDouble =
        [1, 2] ∧
      specTurnsDistancesMeters exGeoScaled exR8 = [1000, 2000] ∧
      (asArr (getMem (exR8.GetMeRouteAsJson exGeoScaled) "turns")).map getDouble ≠
        specTurnsDistancesMeters exGeoScaled exR8 := by
  exact ⟨by decide, by decide, by decide⟩

/-- One MoveIterator step never decreases the cursor's vertex index, never
changes the point sequence, and keeps the index strictly below the point
count when it was so before. -/
theorem moveStep_ind_mono (geo : Geo) (info : GpsInfo) (r : Route) :
    r.m_poly.cur.m_ind ≤ (moveStep geo r info).m_poly.cur.m_ind ∧
    (moveStep geo r info).m_poly.points = r.m_poly.points ∧
    ((moveStep geo r info).m_poly.cur.m_ind = r.m_poly.cur.m_ind ∨
      (moveStep geo r info).m_poly.cur.m_ind < r.m_poly.points.length) := by
  unfold moveStep Route.MoveIterator FollowedPolyline.UpdateProjectionByPrediction
  cases hm : (r.m_poly.points.drop r.m_poly.cur.m_ind).findIdx? (fun q =>
      (geo.metresToXY info.m_longitude info.m_latitude
        (max r.m_matchingThresholdM info.m_horizontalAccuracy)).contains q) with
  | none => simp [hm]
  | some j =>
      have hj : j < (r.m_poly.points.drop r.m_poly.cur.m_ind).length :=
        (List.findIdx?_eq_some_iff_findIdx_eq.mp hm).1
      rw [List.length_drop] at hj
      simp only [hm]
      refine ⟨by omega, by trivial, Or.inr (by omega)⟩

/-- C2: for every fix sequence, the trace of cursor vertex indices along
repeated MoveIterator calls is non-decreasing, and every state of the trace
keeps vertexIndex < pointCount (given it held initially). -/
theorem c2_cursor_monotone (geo : Geo) (fixes : List GpsInfo) (r : Route)
    (h : r.m_poly.cur.m_ind < r.m_poly.points.length) :
    List.Chain' (fun s t : Route => s.m_poly.cur.m_ind ≤ t.m_poly.cur.m_ind)
        (fixes.scanl (moveStep geo) r) ∧
      ∀ s ∈ fixes.scanl (moveStep geo) r,
        s.m_poly.cur.m_ind < s.m_poly.points.length := by
  induction fixes generalizing r with
  | nil =>
      refine ⟨by simp, ?_⟩
      intro s hs
      simp only [List.scanl_nil, List.mem_singleton] at hs
      subst hs
      exact h
  | cons f rest ih =>
      have hstep := moveStep_ind_mono geo f r
      have h' : (moveStep geo r f).m_poly.cur.m_ind <
          (moveStep geo r f).m_poly.points.length := by
        rcases hstep.2.2 with heq | hlt
        · rw [heq, hstep.2.1]
          exact h
        · rw [hstep.2.1]
          exact hlt
      obtain ⟨ihc, ihm⟩ := ih (moveStep geo r f) h'
      have hhead : (rest.scanl (moveStep geo) (moveStep geo r f)).head? =
          some (moveStep geo r f) := by
        cases rest <;> rfl
      constructor
      · rw [List.scanl_cons, List.singleton_append, List.chain'_cons']
        refine ⟨?_, ihc⟩
        intro y hy
        rw [hhead, Option.mem_def] at hy
        cases hy
        exact hstep.1
      · intro s hs
        rw [List.scanl_cons, List.singleton_append] at hs
        rcases List.mem_cons.mp hs with rfl | hs'
        · exact h
        · exact ihm s hs'

/-- Witness for C2 at a one-fix sequence on `exR1`. -/
theorem c2_witness :
    exR1.m_poly.cur.m_ind < exR1.m_poly.points.length ∧
      (List.Chain' (fun s t : Route => s.m_poly.cur.m_ind ≤ t.m_poly.cur.m_ind)
          ([exLoc].scanl (moveStep exGeoW) exR1) ∧
        ∀ s ∈ [exLoc].scanl (moveStep exGeoW) exR1,
          s.m_poly.cur.m_ind < s.m_poly.points.length) :=
  ⟨by decide, c2_cursor_monotone exGeoW [exLoc] exR1 (by decide)⟩

end routing
